import Mathlib

/-!
Shallow embedding of the cg-raytracer core (src/src/*.rs) and verification of
the frozen claims about it.

Modelling conventions:
* Rust `f32` scalars are modelled by `ℝ`.  Decimal literals such as `1e-4` are
  modelled by the exact rationals they denote (`1/10000`).
* Intersection distances are modelled by `EReal`, because the Rust code uses
  `f32::INFINITY` both as the initial accumulator of minimum searches
  (`Scene::find_closest_intersection`, `Pyramid::intersect`) and as the slab
  bounds of `Cube::intersect`; `f32::INFINITY` is modelled by `⊤ : EReal` and
  `-f32::INFINITY` by `⊥`.
* Lean's convention `x / 0 = 0` replaces the IEEE-754 `±∞`/NaN results of a
  float division by zero.  Every division in the sources except the one in
  `Sphere::intersect` is guarded by an epsilon test on the denominator, so the
  convention is only visible for the degenerate zero-direction ray hitting a
  sphere; none of the verified claims depends on that corner.
* Rust `u32` recursion depth is modelled by `ℕ`.
-/

noncomputable section

/-- Vector of three real components used for positions, directions and colours
(src/vector.rs, Vec3). -/
structure Vec3 where
  x : ℝ
  y : ℝ
  z : ℝ

/-- Vec3::zero (src/vector.rs). -/
def Vec3.zero : Vec3 := ⟨0, 0, 0⟩

instance : Zero Vec3 := ⟨Vec3.zero⟩

/-- Vec3::length: magnitude of the vector (src/vector.rs). -/
noncomputable def Vec3.length (v : Vec3) : ℝ :=
  Real.sqrt (v.x * v.x + v.y * v.y + v.z * v.z)

/-- Vec3::length_squared (src/vector.rs). -/
def Vec3.length_squared (v : Vec3) : ℝ :=
  v.x * v.x + v.y * v.y + v.z * v.z

/-- Componentwise addition (impl Add for Vec3, src/vector.rs). -/
def Vec3.add (a b : Vec3) : Vec3 := ⟨a.x + b.x, a.y + b.y, a.z + b.z⟩

instance : Add Vec3 := ⟨Vec3.add⟩

/-- Componentwise subtraction (impl Sub for Vec3, src/vector.rs). -/
def Vec3.sub (a b : Vec3) : Vec3 := ⟨a.x - b.x, a.y - b.y, a.z - b.z⟩

instance : Sub Vec3 := ⟨Vec3.sub⟩

/-- Scalar multiplication (impl Mul<f32> for Vec3, src/vector.rs). -/
def Vec3.mul (v : Vec3) (s : ℝ) : Vec3 := ⟨v.x * s, v.y * s, v.z * s⟩

instance : HMul Vec3 ℝ Vec3 := ⟨Vec3.mul⟩

/-- Scalar division (impl Div<f32> for Vec3, src/vector.rs). -/
def Vec3.div (v : Vec3) (s : ℝ) : Vec3 := ⟨v.x / s, v.y / s, v.z / s⟩

instance : HDiv Vec3 ℝ Vec3 := ⟨Vec3.div⟩

/-- Componentwise negation (impl Neg for Vec3, src/vector.rs). -/
def Vec3.neg (v : Vec3) : Vec3 := ⟨-v.x, -v.y, -v.z⟩

instance : Neg Vec3 := ⟨Vec3.neg⟩

/-- Vec3::normalize: unit vector in the same direction, and the zero vector
for inputs of non-positive length (src/vector.rs). -/
noncomputable def Vec3.normalize (v : Vec3) : Vec3 :=
  if v.length > 0 then v / v.length else Vec3.zero

/-- Vec3::dot (src/vector.rs). -/
def Vec3.dot (a b : Vec3) : ℝ := a.x * b.x + a.y * b.y + a.z * b.z

/-- Vec3::cross (src/vector.rs). -/
def Vec3.cross (a b : Vec3) : Vec3 :=
  ⟨a.y * b.z - a.z * b.y, a.z * b.x - a.x * b.z, a.x * b.y - a.y * b.x⟩

/-- Vec3::reflect: reflect = incident - 2 * (incident · normal) * normal
(src/vector.rs). -/
def Vec3.reflect (v normal : Vec3) : Vec3 :=
  v - normal * (2 * v.dot normal)

/-- Rust f32::clamp(lo, hi): lo if below, hi if above, the value otherwise. -/
def f32clamp (x lo hi : ℝ) : ℝ :=
  if x < lo then lo else if x > hi then hi else x

/-- Vec3::clamp: clamp every component into [0, 1] (src/vector.rs). -/
def Vec3.clamp (v : Vec3) : Vec3 :=
  ⟨f32clamp v.x 0 1, f32clamp v.y 0 1, f32clamp v.z 0 1⟩

/-- Sum of a list of vectors (used to express the shading loop as a sum). -/
def vecSum : List Vec3 → Vec3
  | [] => Vec3.zero
  | v :: rest => v + vecSum rest

/-- Ray: origin plus direction, P(t) = origin + t * direction (src/ray.rs). -/
structure Ray where
  origin : Vec3
  direction : Vec3

/-- Ray::at (src/ray.rs). -/
def Ray.at (r : Ray) (t : ℝ) : Vec3 := r.origin + r.direction * t

/-- Material: surface reflectance parameters (src/material.rs). -/
structure Material where
  color : Vec3
  albedo : ℝ
  specular : ℝ
  shininess : ℝ
  reflectivity : ℝ
  has_texture : Bool
  texture_id : Option ℕ

/-- Light: point light source (src/light.rs). -/
structure Light where
  position : Vec3
  color : Vec3
  intensity : ℝ

/-- Camera (src/camera.rs).  Only the `position` field is read by the
renderer; the remaining fields drive primary-ray generation, which the spec
places out of the core's scope, so they are not embedded. -/
structure Camera where
  position : Vec3

/-- Texture: width x height grid of colours (src/texture.rs).  Rust's
out-of-bounds panic on `data[y][x]` is modelled with a default value; `sample`
only indexes in bounds. -/
structure Texture where
  width : ℕ
  height : ℕ
  data : List (List Vec3)

/-- Texture::sample (src/texture.rs): clamp (u, v) into [0,1], scale by the
dimensions, truncate (Rust `as u32` on a non-negative float) and clamp to the
last texel. -/
def Texture.sample (tex : Texture) (u v : ℝ) : Vec3 :=
  let u' := f32clamp u 0 1
  let v' := f32clamp v 0 1
  let xi := Nat.min (Int.toNat ⌊u' * (tex.width : ℝ)⌋) (tex.width - 1)
  let yi := Nat.min (Int.toNat ⌊v' * (tex.height : ℝ)⌋) (tex.height - 1)
  (tex.data.getD yi []).getD xi Vec3.zero

/-- Sphere (src/sphere.rs). -/
structure Sphere where
  center : Vec3
  radius : ℝ
  material : Material

/-- Sphere::intersect (src/sphere.rs): solve the quadratic, reject a negative
discriminant, then return the first of the two roots exceeding 1e-4. -/
noncomputable def Sphere.intersect (s : Sphere) (ray : Ray) : Option ℝ :=
  let oc := ray.origin - s.center
  let a := ray.direction.dot ray.direction
  let b := 2 * oc.dot ray.direction
  let c := oc.dot oc - s.radius * s.radius
  let discriminant := b * b - 4 * a * c
  if discriminant < 0 then none
  else
    let discriminant_sqrt := Real.sqrt discriminant
    let t1 := (-b - discriminant_sqrt) / (2 * a)
    let t2 := (-b + discriminant_sqrt) / (2 * a)
    if t1 > 1 / 10000 then some t1
    else if t2 > 1 / 10000 then some t2
    else none

/-- Sphere::normal_at (src/sphere.rs). -/
noncomputable def Sphere.normal_at (s : Sphere) (point : Vec3) : Vec3 :=
  (point - s.center).normalize

/-- Plane (src/plane.rs).  The `normal` field stores the already normalised
normal (Plane::new normalises its argument on construction). -/
structure Plane where
  point : Vec3
  normal : Vec3
  material : Material

/-- Plane::intersect (src/plane.rs): reject near-parallel rays, then accept
the plane parameter when it exceeds 1e-4. -/
def Plane.intersect (p : Plane) (ray : Ray) : Option ℝ :=
  let denom := ray.direction.dot p.normal
  if |denom| < 1 / 1000000 then none
  else
    let t := (p.point - ray.origin).dot p.normal / denom
    if t > 1 / 10000 then some t else none

/-- Plane::normal_at (src/plane.rs). -/
def Plane.normal_at (p : Plane) (_point : Vec3) : Vec3 := p.normal

/-- Axis-aligned box (src/cube.rs). -/
structure Cube where
  min : Vec3
  max : Vec3
  material : Material

/-- One iteration of the slab loop of Cube::intersect (src/cube.rs): an axis
either narrows the running [t_min, t_max] interval (early exit `none` when it
becomes empty), or, for a near-zero direction component, rejects the ray when
the origin lies outside that axis' slab. -/
def slabStep (ray_start ray_dir min_bound max_bound : ℝ) (acc : EReal × EReal) :
    Option (EReal × EReal) :=
  if |ray_dir| > 1 / 1000000 then
    let t0 := (min_bound - ray_start) / ray_dir
    let t1 := (max_bound - ray_start) / ray_dir
    let p := if t0 > t1 then (t1, t0) else (t0, t1)
    let t_min := Max.max acc.1 ((p.1 : ℝ) : EReal)
    let t_max := Min.min acc.2 ((p.2 : ℝ) : EReal)
    if t_min > t_max then none else some (t_min, t_max)
  else if ray_start < min_bound ∨ ray_start > max_bound then none
  else some acc

/-- Cube::intersect (src/cube.rs): slab test over the three axes starting
from (-∞, +∞), then return t_min if it exceeds 1e-4, else t_max if it does,
else nothing. -/
def Cube.intersect (c : Cube) (ray : Ray) : Option EReal :=
  match slabStep ray.origin.x ray.direction.x c.min.x c.max.x (⊥, ⊤) with
  | none => none
  | some acc1 =>
    match slabStep ray.origin.y ray.direction.y c.min.y c.max.y acc1 with
    | none => none
    | some acc2 =>
      match slabStep ray.origin.z ray.direction.z c.min.z c.max.z acc2 with
      | none => none
      | some acc3 =>
        if acc3.1 > (((1 : ℝ) / 10000 : ℝ) : EReal) then some acc3.1
        else if acc3.2 > (((1 : ℝ) / 10000 : ℝ) : EReal) then some acc3.2
        else none

/-- Cube::normal_at (src/cube.rs): outward normal of the face nearest to the
point. -/
def Cube.normal_at (c : Cube) (point : Vec3) : Vec3 :=
  let dx_min := |point.x - c.min.x|
  let dx_max := |point.x - c.max.x|
  let dy_min := |point.y - c.min.y|
  let dy_max := |point.y - c.max.y|
  let dz_min := |point.z - c.min.z|
  let dz_max := |point.z - c.max.z|
  let min_dist := Min.min (Min.min (Min.min (Min.min (Min.min dx_min dx_max) dy_min) dy_max) dz_min) dz_max
  if |min_dist - dx_min| < 1 / 1000000 then ⟨-1, 0, 0⟩
  else if |min_dist - dx_max| < 1 / 1000000 then ⟨1, 0, 0⟩
  else if |min_dist - dy_min| < 1 / 1000000 then ⟨0, -1, 0⟩
  else if |min_dist - dy_max| < 1 / 1000000 then ⟨0, 1, 0⟩
  else if |min_dist - dz_min| < 1 / 1000000 then ⟨0, 0, -1⟩
  else ⟨0, 0, 1⟩

/-- Triangular pyramid / tetrahedron (src/pyramid.rs). -/
structure Pyramid where
  apex : Vec3
  base_center : Vec3
  height : ℝ
  base_radius : ℝ
  material : Material

/-- Pyramid::get_base_vertices (src/pyramid.rs): the base equilateral
triangle at angles 0, 2π/3 and 4π/3. -/
noncomputable def Pyramid.get_base_vertices (p : Pyramid) : Vec3 × Vec3 × Vec3 :=
  let angle1 : ℝ := 0
  let angle2 : ℝ := Real.pi * 2 / 3
  let angle3 : ℝ := Real.pi * 4 / 3
  (⟨p.base_center.x + p.base_radius * Real.cos angle1, p.base_center.y,
      p.base_center.z + p.base_radius * Real.sin angle1⟩,
   ⟨p.base_center.x + p.base_radius * Real.cos angle2, p.base_center.y,
      p.base_center.z + p.base_radius * Real.sin angle2⟩,
   ⟨p.base_center.x + p.base_radius * Real.cos angle3, p.base_center.y,
      p.base_center.z + p.base_radius * Real.sin angle3⟩)

/-- Pyramid::intersect_triangle (src/pyramid.rs): Möller–Trumbore ray/triangle
intersection with parallelism threshold 1e-6 and acceptance threshold
t > 1e-6. -/
def Pyramid.intersect_triangle (ray : Ray) (v0 v1 v2 : Vec3) : Option ℝ :=
  let epsilon : ℝ := 1 / 1000000
  let edge1 := v1 - v0
  let edge2 := v2 - v0
  let h := ray.direction.cross edge2
  let a := edge1.dot h
  if |a| < epsilon then none
  else
    let f := 1 / a
    let s := ray.origin - v0
    let u := f * s.dot h
    if u < 0 ∨ u > 1 then none
    else
      let q := s.cross edge1
      let v := f * ray.direction.dot q
      if v < 0 ∨ u + v > 1 then none
      else
        let t := f * edge2.dot q
        if t > epsilon then some t else none

/-- The `if let Some(t) = ... { if t < closest_t { closest_t = t } }` pattern
of Pyramid::intersect (src/pyramid.rs). -/
def updateMin (ct : EReal) (r : Option ℝ) : EReal :=
  match r with
  | some t => if (t : EReal) < ct then (t : EReal) else ct
  | none => ct

/-- Pyramid::intersect (src/pyramid.rs): minimum accepted t over the three
lateral faces and the base, starting from f32::INFINITY; a hit is reported
when the minimum is below infinity. -/
noncomputable def Pyramid.intersect (p : Pyramid) (ray : Ray) : Option EReal :=
  let bv := p.get_base_vertices
  let ct1 := updateMin ⊤ (Pyramid.intersect_triangle ray p.apex bv.1 bv.2.1)
  let ct2 := updateMin ct1 (Pyramid.intersect_triangle ray p.apex bv.2.1 bv.2.2)
  let ct3 := updateMin ct2 (Pyramid.intersect_triangle ray p.apex bv.2.2 bv.1)
  let ct4 := updateMin ct3 (Pyramid.intersect_triangle ray bv.1 bv.2.1 bv.2.2)
  if ct4 < ⊤ then some ct4 else none

/-- One iteration of the lateral-face loop of Pyramid::normal_at
(src/pyramid.rs): outward-corrected face normal, kept when its plane is
closer to the point than the best so far. -/
noncomputable def pyramidFaceStep (center point v0 v1 v2 : Vec3) (acc : Vec3 × EReal) :
    Vec3 × EReal :=
  let edge1 := v1 - v0
  let edge2 := v2 - v0
  let normal0 := (edge1.cross edge2).normalize
  let face_center : Vec3 := ⟨(v0.x + v1.x + v2.x) / 3, (v0.y + v1.y + v2.y) / 3,
    (v0.z + v1.z + v2.z) / 3⟩
  let outward := face_center - center
  let normal := if normal0.dot outward < 0 then normal0 * (-1 : ℝ) else normal0
  let to_point := point - v0
  let distance := |to_point.dot normal|
  if ((distance : ℝ) : EReal) < acc.2 then (normal, ((distance : ℝ) : EReal)) else acc

/-- Pyramid::normal_at (src/pyramid.rs). -/
noncomputable def Pyramid.normal_at (p : Pyramid) (point : Vec3) : Vec3 :=
  let bv := p.get_base_vertices
  let center : Vec3 := ⟨(p.apex.x + p.base_center.x) * (1 / 2),
    (p.apex.y + p.base_center.y) * (1 / 2), (p.apex.z + p.base_center.z) * (1 / 2)⟩
  let dist_to_base := |point.y - p.base_center.y|
  if dist_to_base < 1 / 10000 then ⟨0, -1, 0⟩
  else
    let acc0 : Vec3 × EReal := (⟨0, -1, 0⟩, ⊤)
    let acc1 := pyramidFaceStep center point p.apex bv.1 bv.2.1 acc0
    let acc2 := pyramidFaceStep center point p.apex bv.2.1 bv.2.2 acc1
    let acc3 := pyramidFaceStep center point p.apex bv.2.2 bv.1 acc2
    acc3.1.normalize

/-- Closed union of scene primitives (src/scene.rs: trait Intersectable with
its four impls; the spec notes a closed tagged union is an equivalent
rendering of the dynamic dispatch). -/
inductive Object where
  | sphere (s : Sphere)
  | plane (p : Plane)
  | cube (c : Cube)
  | pyramid (p : Pyramid)

/-- Intersectable::intersect dispatch (src/scene.rs).  Sphere and Plane
distances are finite reals; Cube and Pyramid report EReal distances (the box
can report f32::INFINITY for a degenerate direction). -/
noncomputable def Object.intersect (o : Object) (ray : Ray) : Option EReal :=
  match o with
  | .sphere s => (Sphere.intersect s ray).map (fun t => ((t : ℝ) : EReal))
  | .plane p => (Plane.intersect p ray).map (fun t => ((t : ℝ) : EReal))
  | .cube c => Cube.intersect c ray
  | .pyramid p => Pyramid.intersect p ray

/-- Intersectable::normal_at dispatch (src/scene.rs). -/
noncomputable def Object.normal_at (o : Object) (point : Vec3) : Vec3 :=
  match o with
  | .sphere s => Sphere.normal_at s point
  | .plane p => Plane.normal_at p point
  | .cube c => Cube.normal_at c point
  | .pyramid p => Pyramid.normal_at p point

/-- Intersectable::get_material dispatch (src/scene.rs). -/
def Object.get_material (o : Object) : Material :=
  match o with
  | .sphere s => s.material
  | .plane p => p.material
  | .cube c => c.material
  | .pyramid p => p.material

/-- Scene (src/scene.rs).  The texture table is `Vec<()>` in the source: it
stores unit placeholders and no colour data. -/
structure Scene where
  objects : List Object
  lights : List Light
  camera : Camera
  background_color : Vec3
  textures : List Unit

/-- The loop of Scene::find_closest_intersection (src/scene.rs), threading
`closest_t` (initially f32::INFINITY, modelled ⊤) and `closest_object`; an object
replaces the pair exactly when its t is strictly below the running minimum. -/
noncomputable def findClosestAux (ray : Ray) :
    List Object → EReal → Option Object → EReal × Option Object
  | [], ct, co => (ct, co)
  | o :: rest, ct, co =>
    match Object.intersect o ray with
    | some t => if t < ct then findClosestAux ray rest t (some o)
                else findClosestAux ray rest ct co
    | none => findClosestAux ray rest ct co

/-- Scene::find_closest_intersection (src/scene.rs). -/
noncomputable def Scene.find_closest_intersection (s : Scene) (ray : Ray) :
    Option (EReal × Object) :=
  let r := findClosestAux ray s.objects ⊤ none
  r.2.map (fun o => (r.1, o))

namespace Renderer

/-- EPSILON = 1e-4 (src/renderer.rs). -/
def EPSILON : ℝ := 1 / 10000

/-- AMBIENT_STRENGTH = 0.2 (src/renderer.rs). -/
def AMBIENT_STRENGTH : ℝ := 1 / 5

/-- Renderer::find_closest_intersection (src/renderer.rs): the scene query
plus hit point and normal.  The distance is finite in every branch the
renderer reaches except the degenerate infinite box hit, where the real part
of the EReal distance stands in for the float cast. -/
noncomputable def find_closest_intersection (ray : Ray) (scene : Scene) :
    Option (EReal × Vec3 × Vec3 × Object) :=
  match Scene.find_closest_intersection scene ray with
  | some (t, object) =>
    let hit_point := ray.at t.toReal
    let normal := object.normal_at hit_point
    some (t, hit_point, normal, object)
  | none => none

/-- Body of the per-light loop of Renderer::shade (src/renderer.rs): shadow
test, then the Lambertian diffuse and Phong specular contributions. -/
noncomputable def shadeLightStep (hit_point normal : Vec3) (material : Material)
    (scene : Scene) (view_dir : Vec3) (color : Vec3) (light : Light) : Vec3 :=
  let light_dir := (light.position - hit_point).normalize
  let shadow_ray : Ray := ⟨hit_point + normal * EPSILON, light_dir⟩
  let distance_to_light := (light.position - hit_point).length
  let is_in_shadow : Bool :=
    match find_closest_intersection shadow_ray scene with
    | some (t, _, _, _) => decide (t < ((distance_to_light : ℝ) : EReal))
    | none => false
  if is_in_shadow then color
  else
    let diffuse_intensity := Max.max (normal.dot light_dir) 0
    let diffuse := material.color * diffuse_intensity * material.albedo * light.intensity
    let reflected_light := light_dir.reflect (-normal)
    let specular_intensity := (Max.max (reflected_light.dot view_dir) 0) ^ material.shininess
    let specular := (light.color * specular_intensity * material.specular) * light.intensity
    color + diffuse + specular

/-- Renderer::shade (src/renderer.rs): ambient term, the per-light loop, and
a final clamp of every channel into [0, 1]. -/
noncomputable def shade (hit_point normal : Vec3) (material : Material)
    (scene : Scene) (view_dir : Vec3) : Vec3 :=
  let ambient := material.color * AMBIENT_STRENGTH
  (scene.lights.foldl (shadeLightStep hit_point normal material scene view_dir) ambient).clamp

/-- Renderer::trace_ray (src/renderer.rs): depth 0 returns the background
colour; otherwise shade the nearest hit and, for a reflective material at
depth > 1, blend with the traced reflection ray at depth - 1. -/
noncomputable def trace_ray (ray : Ray) (scene : Scene) : ℕ → Vec3
  | 0 => scene.background_color
  | depth + 1 =>
    match find_closest_intersection ray scene with
    | some (_t, hit_point, normal, object) =>
      let material := object.get_material
      let view_dir := (scene.camera.position - hit_point).normalize
      let local_color := shade hit_point normal material scene view_dir
      if material.reflectivity > 0 ∧ depth + 1 > 1 then
        let reflected_dir := ray.direction.reflect normal
        let reflected_ray : Ray := ⟨hit_point + normal * EPSILON, reflected_dir⟩
        let reflected_color := trace_ray reflected_ray scene depth
        local_color * (1 - material.reflectivity) + reflected_color * material.reflectivity
      else local_color
    | none => scene.background_color

/-- The shadow test inside the light loop of Renderer::shade
(src/renderer.rs): a point is shadowed for a light when the nearest scene
intersection along the shadow ray lies strictly closer than the light. -/
noncomputable def is_in_shadow (scene : Scene) (hit_point normal : Vec3)
    (light : Light) : Bool :=
  let light_dir := (light.position - hit_point).normalize
  let shadow_ray : Ray := ⟨hit_point + normal * EPSILON, light_dir⟩
  let distance_to_light := (light.position - hit_point).length
  match find_closest_intersection shadow_ray scene with
  | some (t, _, _, _) => decide (t < ((distance_to_light : ℝ) : EReal))
  | none => false

/-- The colour one light adds inside the loop of Renderer::shade: nothing
when the light is shadowed, otherwise the diffuse plus specular terms. -/
noncomputable def light_contribution (hit_point normal : Vec3)
    (material : Material) (scene : Scene) (view_dir : Vec3) (light : Light) : Vec3 :=
  if is_in_shadow scene hit_point normal light then Vec3.zero
  else
    let light_dir := (light.position - hit_point).normalize
    let diffuse := material.color * (Max.max (normal.dot light_dir) 0) *
      material.albedo * light.intensity
    let specular := (light.color *
        ((Max.max ((light_dir.reflect (-normal)).dot view_dir) 0) ^ material.shininess) *
        material.specular) * light.intensity
    diffuse + specular

end Renderer

/-- color_to_rgb (src/main.rs): each channel is scaled by 255, clamped into
[0, 255] and cast with Rust `as u8`, which truncates toward zero — on the
clamped non-negative operand this is the integer floor. -/
noncomputable def color_to_rgb (color : Vec3) : ℕ × ℕ × ℕ :=
  (Int.toNat ⌊f32clamp (color.x * 255) 0 255⌋,
   Int.toNat ⌊f32clamp (color.y * 255) 0 255⌋,
   Int.toNat ⌊f32clamp (color.z * 255) 0 255⌋)

/-- Modelled from the spec: the per-channel conversion the spec describes,
round(clamp(c, 0, 1) × 255) (spec section 6); for comparison against
`color_to_rgb`. -/
noncomputable def specRoundChannel (c : ℝ) : ℤ :=
  round (f32clamp c 0 1 * 255)

/-- All three channels of a colour lie in [0, 1]. -/
def inUnit (c : Vec3) : Prop :=
  0 ≤ c.x ∧ c.x ≤ 1 ∧ 0 ≤ c.y ∧ c.y ≤ 1 ∧ 0 ≤ c.z ∧ c.z ≤ 1

/-- C2: trace with depth 0 returns exactly the scene's background colour,
for every ray and scene. -/
theorem trace_ray_depth_zero_eq_background (ray : Ray) (scene : Scene) :
    Renderer.trace_ray ray scene 0 = scene.background_color := rfl

/-- C9: the recursion of trace_ray is structural in depth alone: depth 0
returns the background colour, the call at depth + 1 either performs no
recursion or recurses exactly once at depth, and at depth 1 the reflective
recursion is never entered (the code's guard is depth > 1). -/
theorem trace_ray_recursion_structure (ray : Ray) (scene : Scene) :
    Renderer.trace_ray ray scene 0 = scene.background_color ∧
    (∀ depth : ℕ,
      Renderer.trace_ray ray scene (depth + 1) =
        match Renderer.find_closest_intersection ray scene with
        | some (_t, hit_point, normal, object) =>
          if object.get_material.reflectivity > 0 ∧ depth + 1 > 1 then
            Renderer.shade hit_point normal object.get_material scene
                ((scene.camera.position - hit_point).normalize) *
                (1 - object.get_material.reflectivity) +
              Renderer.trace_ray ⟨hit_point + normal * Renderer.EPSILON,
                  ray.direction.reflect normal⟩ scene depth *
                object.get_material.reflectivity
          else Renderer.shade hit_point normal object.get_material scene
              ((scene.camera.position - hit_point).normalize)
        | none => scene.background_color) ∧
    (Renderer.trace_ray ray scene 1 =
      match Renderer.find_closest_intersection ray scene with
      | some (_t, hit_point, normal, object) =>
        Renderer.shade hit_point normal object.get_material scene
          ((scene.camera.position - hit_point).normalize)
      | none => scene.background_color) := by
  refine ⟨rfl, fun depth => ?_, ?_⟩
  · cases h : Renderer.find_closest_intersection ray scene with
    | none => simp [Renderer.trace_ray, h]
    | some hit =>
      obtain ⟨t, hit_point, normal, object⟩ := hit
      simp only [Renderer.trace_ray, h]
  · cases h : Renderer.find_closest_intersection ray scene with
    | none => simp [Renderer.trace_ray, h]
    | some hit =>
      obtain ⟨t, hit_point, normal, object⟩ := hit
      simp only [Renderer.trace_ray, h]
      rw [if_neg]
      intro hcond
      exact absurd hcond.2 (by norm_num)

/-- C8: normalizing the zero vector yields the zero vector, and any vector of
positive length is normalized by dividing each component by that length. -/
theorem normalize_zero_and_positive_length :
    Vec3.normalize Vec3.zero = Vec3.zero ∧
    ∀ v : Vec3, 0 < v.length →
      Vec3.normalize v = ⟨v.x / v.length, v.y / v.length, v.z / v.length⟩ := by
  constructor
  · rw [Vec3.normalize]
    rw [if_neg]
    simp [Vec3.length, Vec3.zero]
  · intro v h
    rw [Vec3.normalize, if_pos h]
    rfl

/-- Witness for C8 at the concrete vector (3, 4, 0). -/
theorem normalize_positive_length_witness :
    0 < Vec3.length ⟨3, 4, 0⟩ ∧
    Vec3.normalize ⟨3, 4, 0⟩ =
      ⟨3 / Vec3.length ⟨3, 4, 0⟩, 4 / Vec3.length ⟨3, 4, 0⟩, 0 / Vec3.length ⟨3, 4, 0⟩⟩ := by
  have h : 0 < Vec3.length ⟨3, 4, 0⟩ := by
    rw [Vec3.length]
    have : ((3 : ℝ) * 3 + 4 * 4 + 0 * 0) = 25 := by norm_num
    rw [this]
    exact Real.sqrt_pos.mpr (by norm_num)
  exact ⟨h, normalize_zero_and_positive_length.2 ⟨3, 4, 0⟩ h⟩

/-- The scalar clamp of the framebuffer conversion commutes with the scaling
by 255: clamping x*255 into [0,255] equals clamping x into [0,1] then
scaling. -/
theorem f32clamp_mul_255 (x : ℝ) :
    f32clamp (x * 255) 0 255 = f32clamp x 0 1 * 255 := by
  rw [f32clamp, f32clamp]
  split_ifs with h1 h2 h3 h4 h5 h6 <;> nlinarith

/-- C7 counterexample: at channel value 1/2 the code converts to 127
(truncation of 127.5) while round(clamp(1/2,0,1) x 255) = 128. -/
theorem color_to_rgb_truncation_counterexample :
    color_to_rgb ⟨1 / 2, 1 / 2, 1 / 2⟩ = (127, 127, 127) ∧
    specRoundChannel (1 / 2) = 128 ∧ (127 : ℕ) ≠ (128 : ℕ) := by
  refine ⟨?_, ?_, by norm_num⟩
  · have hc : f32clamp ((1 : ℝ) / 2 * 255) 0 255 = 255 / 2 := by
      rw [f32clamp]
      rw [if_neg (by norm_num), if_neg (by norm_num)]
      norm_num
    have hf : ⌊(255 : ℝ) / 2⌋ = 127 := by
      rw [Int.floor_eq_iff]
      norm_num
    rw [color_to_rgb, hc, hf]
    rfl
  · rw [specRoundChannel, f32clamp]
    rw [if_neg (by norm_num), if_neg (by norm_num)]
    rw [round_eq]
    rw [show (1 : ℝ) / 2 * 255 + 1 / 2 = 128 by norm_num]
    exact_mod_cast Int.floor_intCast 128

/-- Componentwise form of vector subtraction. -/
theorem vsub_def (a b : Vec3) : a - b = ⟨a.x - b.x, a.y - b.y, a.z - b.z⟩ := rfl

/-- Componentwise form of vector addition. -/
theorem vadd_def (a b : Vec3) : a + b = ⟨a.x + b.x, a.y + b.y, a.z + b.z⟩ := rfl

/-- Componentwise form of the vector-scalar product. -/
theorem vmul_def (v : Vec3) (s : ℝ) : v * s = ⟨v.x * s, v.y * s, v.z * s⟩ := rfl

/-- Componentwise form of the vector-scalar division. -/
theorem vdiv_def (v : Vec3) (s : ℝ) : v / s = ⟨v.x / s, v.y / s, v.z / s⟩ := rfl

/-- Componentwise form of vector negation. -/
theorem vneg_def (v : Vec3) : -v = ⟨-v.x, -v.y, -v.z⟩ := rfl

/-- The Möller–Trumbore triangle test of the pyramid only accepts parameters
strictly above its 1e-6 floor. -/
theorem intersect_triangle_floor (ray : Ray) (v0 v1 v2 : Vec3) (t : ℝ)
    (h : Pyramid.intersect_triangle ray v0 v1 v2 = some t) : 1 / 1000000 < t := by
  simp only [Pyramid.intersect_triangle] at h
  split_ifs at h with h1 h2 h3 h4
  obtain rfl := Option.some.inj h
  exact h4

/-- updateMin keeps the strict lower bound 1e-6 when every candidate obeys
it. -/
theorem updateMin_floor (ct : EReal) (r : Option ℝ)
    (hct : (((1 : ℝ) / 1000000 : ℝ) : EReal) < ct)
    (hr : ∀ t : ℝ, r = some t → 1 / 1000000 < t) :
    (((1 : ℝ) / 1000000 : ℝ) : EReal) < updateMin ct r := by
  cases r with
  | none => exact hct
  | some t =>
    have ht := hr t rfl
    simp only [updateMin]
    by_cases hlt : ((t : ℝ) : EReal) < ct
    · rw [if_pos hlt]
      exact_mod_cast ht
    · rw [if_neg hlt]
      exact hct

/-- C4: every primitive's intersect returns nothing or a distance strictly
above its epsilon floor (1e-6 for the pyramid, 1e-4 for sphere, plane and
box), hence strictly positive. -/
theorem intersect_epsilon_floor (o : Object) (ray : Ray) (t : EReal)
    (h : o.intersect ray = some t) :
    (((match o with
        | .pyramid _ => (1 : ℝ) / 1000000
        | _ => (1 : ℝ) / 10000) : ℝ) : EReal) < t ∧ (0 : EReal) < t := by
  have floor_pos : ∀ (e : ℝ), 0 < e → (((e : ℝ) : EReal) < t → (0 : EReal) < t) := by
    intro e he hlt
    refine lt_trans ?_ hlt
    exact_mod_cast he
  cases o with
  | sphere s =>
    simp only [Object.intersect] at h
    obtain ⟨t', ht', rfl⟩ := Option.map_eq_some'.mp h
    simp only [Sphere.intersect] at ht'
    split_ifs at ht' with h1 h2 h3
    · obtain rfl := Option.some.inj ht'
      exact ⟨by exact_mod_cast h2, floor_pos (1 / 10000) (by norm_num) (by exact_mod_cast h2)⟩
    · obtain rfl := Option.some.inj ht'
      exact ⟨by exact_mod_cast h3, floor_pos (1 / 10000) (by norm_num) (by exact_mod_cast h3)⟩
  | plane p =>
    simp only [Object.intersect] at h
    obtain ⟨t', ht', rfl⟩ := Option.map_eq_some'.mp h
    simp only [Plane.intersect] at ht'
    split_ifs at ht' with h1 h2
    obtain rfl := Option.some.inj ht'
    exact ⟨by exact_mod_cast h2, floor_pos (1 / 10000) (by norm_num) (by exact_mod_cast h2)⟩
  | cube c =>
    simp only [Object.intersect, Cube.intersect] at h
    cases hs1 : slabStep ray.origin.x ray.direction.x c.min.x c.max.x (⊥, ⊤) with
    | none =>
      rw [hs1] at h
      exact Option.noConfusion h
    | some acc1 =>
      simp only [hs1] at h
      cases hs2 : slabStep ray.origin.y ray.direction.y c.min.y c.max.y acc1 with
      | none =>
        rw [hs2] at h
        exact Option.noConfusion h
      | some acc2 =>
        simp only [hs2] at h
        cases hs3 : slabStep ray.origin.z ray.direction.z c.min.z c.max.z acc2 with
        | none =>
          rw [hs3] at h
          exact Option.noConfusion h
        | some acc3 =>
          simp only [hs3] at h
          split_ifs at h with h1 h2
          · obtain rfl := Option.some.inj h
            exact ⟨h1, floor_pos (1 / 10000) (by norm_num) h1⟩
          · obtain rfl := Option.some.inj h
            exact ⟨h2, floor_pos (1 / 10000) (by norm_num) h2⟩
  | pyramid p =>
    simp only [Object.intersect, Pyramid.intersect] at h
    split_ifs at h with hlt
    have hb : (((1 : ℝ) / 1000000 : ℝ) : EReal) < ⊤ := by
      exact_mod_cast EReal.coe_lt_top _
    have key : ∀ (ct : EReal) (v0 v1 v2 : Vec3),
        (((1 : ℝ) / 1000000 : ℝ) : EReal) < ct →
        (((1 : ℝ) / 1000000 : ℝ) : EReal) <
          updateMin ct (Pyramid.intersect_triangle ray v0 v1 v2) := by
      intro ct v0 v1 v2 hct
      exact updateMin_floor _ _ hct (fun t ht => intersect_triangle_floor _ _ _ _ _ ht)
    have h4 := key _ p.get_base_vertices.1 p.get_base_vertices.2.1 p.get_base_vertices.2.2
      (key _ p.apex p.get_base_vertices.2.2 p.get_base_vertices.1
        (key _ p.apex p.get_base_vertices.2.1 p.get_base_vertices.2.2
          (key ⊤ p.apex p.get_base_vertices.1 p.get_base_vertices.2.1 hb)))
    obtain rfl := Option.some.inj h
    exact ⟨h4, floor_pos (1 / 1000000) (by norm_num) h4⟩

/-- Witness for C4 at a concrete plane and ray: the floor plane at the origin
hit from above at distance 1. -/
theorem intersect_epsilon_floor_witness :
    Object.intersect
        (Object.plane ⟨⟨0, 0, 0⟩, ⟨0, 1, 0⟩,
          ⟨⟨1, 1, 1⟩, 8 / 10, 2 / 10, 32, 0, false, none⟩⟩)
        ⟨⟨0, 1, 0⟩, ⟨0, -1, 0⟩⟩ = some (((1 : ℝ) : EReal)) ∧
    (((1 : ℝ) / 10000 : ℝ) : EReal) < ((1 : ℝ) : EReal) ∧
    (0 : EReal) < ((1 : ℝ) : EReal) := by
  have h : Object.intersect
      (Object.plane ⟨⟨0, 0, 0⟩, ⟨0, 1, 0⟩,
        ⟨⟨1, 1, 1⟩, 8 / 10, 2 / 10, 32, 0, false, none⟩⟩)
      ⟨⟨0, 1, 0⟩, ⟨0, -1, 0⟩⟩ = some (((1 : ℝ) : EReal)) := by
    simp only [Object.intersect, Plane.intersect, Vec3.dot, vsub_def]
    norm_num
  have hc := intersect_epsilon_floor _ _ _ h
  exact ⟨h, hc.1, hc.2⟩

/-- C7 amended: each channel of the 8-bit conversion equals the integer floor
(Rust's truncating cast on a non-negative operand) of clamp(c,0,1) x 255. -/
theorem color_to_rgb_eq_floor_clamp (c : Vec3) :
    color_to_rgb c =
      (Int.toNat ⌊f32clamp c.x 0 1 * 255⌋, Int.toNat ⌊f32clamp c.y 0 1 * 255⌋,
       Int.toNat ⌊f32clamp c.z 0 1 * 255⌋) := by
  rw [color_to_rgb, f32clamp_mul_255, f32clamp_mul_255, f32clamp_mul_255]

/-- Adding the zero vector on the right is the identity. -/
theorem v3add_zero (v : Vec3) : v + Vec3.zero = v := by
  cases v
  simp only [vadd_def, Vec3.zero, Vec3.mk.injEq]
  exact ⟨add_zero _, add_zero _, add_zero _⟩

/-- Adding the zero vector on the left is the identity. -/
theorem v3zero_add (v : Vec3) : Vec3.zero + v = v := by
  cases v
  simp only [vadd_def, Vec3.zero, Vec3.mk.injEq]
  exact ⟨zero_add _, zero_add _, zero_add _⟩

/-- Vector addition is associative. -/
theorem v3add_assoc (a b c : Vec3) : a + b + c = a + (b + c) := by
  cases a; cases b; cases c
  simp only [vadd_def, Vec3.mk.injEq]
  exact ⟨add_assoc _ _ _, add_assoc _ _ _, add_assoc _ _ _⟩

/-- vecSum splits over list append. -/
theorem vecSum_append (A B : List Vec3) : vecSum (A ++ B) = vecSum A + vecSum B := by
  induction A with
  | nil =>
    simp only [List.nil_append, vecSum]
    exact (v3zero_add _).symm
  | cons v rest ih =>
    simp only [List.cons_append, vecSum]
    show v + vecSum (rest ++ B) = v + vecSum rest + vecSum B
    rw [ih]
    exact (v3add_assoc _ _ _).symm

/-- Reflecting about the negated normal equals reflecting about the normal
(the two quadratic occurrences of the normal cancel the sign). -/
theorem reflect_neg_normal (v n : Vec3) : v.reflect (-n) = v.reflect n := by
  cases v; cases n
  simp only [Vec3.reflect, vneg_def, Vec3.dot, vmul_def, vsub_def, Vec3.mk.injEq]
  refine ⟨by ring, by ring, by ring⟩

/-- An if-then-else shared by the loop body and the per-light contribution. -/
theorem step_if_eq (b : Bool) (c d s : Vec3) :
    (if b then c else c + d + s) = c + (if b then Vec3.zero else d + s) := by
  cases b
  · simp only [Bool.false_eq_true, if_false]
    exact v3add_assoc _ _ _
  · simp only [if_true]
    exact (v3add_zero _).symm

/-- The loop body of Renderer::shade adds exactly the per-light
contribution. -/
theorem shadeLightStep_eq_contribution (hit_point normal : Vec3)
    (material : Material) (scene : Scene) (view_dir : Vec3) (color : Vec3)
    (light : Light) :
    Renderer.shadeLightStep hit_point normal material scene view_dir color light =
      color + Renderer.light_contribution hit_point normal material scene view_dir light := by
  simp only [Renderer.shadeLightStep, Renderer.light_contribution, Renderer.is_in_shadow]
  exact step_if_eq _ _ _ _

/-- Folding the shade loop over any light list equals the accumulator plus
the sum of the per-light contributions. -/
theorem foldl_shadeLightStep (hit_point normal : Vec3) (material : Material)
    (scene : Scene) (view_dir : Vec3) (L : List Light) :
    ∀ acc : Vec3,
      L.foldl (Renderer.shadeLightStep hit_point normal material scene view_dir) acc =
        acc + vecSum (L.map
          (Renderer.light_contribution hit_point normal material scene view_dir)) := by
  induction L with
  | nil =>
    intro acc
    simp only [List.foldl_nil, List.map_nil, vecSum]
    exact (v3add_zero _).symm
  | cons l rest ih =>
    intro acc
    simp only [List.foldl_cons, List.map_cons, vecSum]
    rw [shadeLightStep_eq_contribution, ih]
    exact v3add_assoc _ _ _

/-- Renderer::shade equals the clamped sum of the ambient term and all
per-light contributions. -/
theorem shade_eq_ambient_add_sum (hit_point normal : Vec3) (material : Material)
    (scene : Scene) (view_dir : Vec3) :
    Renderer.shade hit_point normal material scene view_dir =
      Vec3.clamp (material.color * Renderer.AMBIENT_STRENGTH +
        vecSum (scene.lights.map
          (Renderer.light_contribution hit_point normal material scene view_dir))) := by
  simp only [Renderer.shade]
  rw [foldl_shadeLightStep]

/-- C5: shade decomposes as the clamp of ambient plus, for every
non-shadowed light, a diffuse term and the specular term
lightColor * max(0, reflect(lightDir, normal) . viewDir) ^ shininess *
material.specular * light.intensity, where the reflected vector is the
light direction reflected about the surface normal (the code's reflection
about the negated normal coincides with it). -/
theorem shade_specular_phong_decomposition (hit_point normal : Vec3)
    (material : Material) (scene : Scene) (view_dir : Vec3) :
    Renderer.shade hit_point normal material scene view_dir =
      Vec3.clamp (material.color * Renderer.AMBIENT_STRENGTH +
        vecSum (scene.lights.map (fun light =>
          if Renderer.is_in_shadow scene hit_point normal light then Vec3.zero
          else
            material.color *
                (Max.max (normal.dot ((light.position - hit_point).normalize)) 0) *
                material.albedo * light.intensity +
              (light.color *
                  ((Max.max 0
                      ((((light.position - hit_point).normalize).reflect normal).dot
                        view_dir)) ^ material.shininess) *
                  material.specular) * light.intensity))) := by
  rw [shade_eq_ambient_add_sum]
  have hfun : (Renderer.light_contribution hit_point normal material scene view_dir) =
      (fun light =>
        if Renderer.is_in_shadow scene hit_point normal light then Vec3.zero
        else
          material.color *
              (Max.max (normal.dot ((light.position - hit_point).normalize)) 0) *
              material.albedo * light.intensity +
            (light.color *
                ((Max.max 0
                    ((((light.position - hit_point).normalize).reflect normal).dot
                      view_dir)) ^ material.shininess) *
                material.specular) * light.intensity) := by
    funext light
    simp only [Renderer.light_contribution]
    by_cases h : Renderer.is_in_shadow scene hit_point normal light = true
    · rw [if_pos h, if_pos h]
    · rw [if_neg h, if_neg h, reflect_neg_normal,
        max_comm ((((light.position - hit_point).normalize).reflect normal).dot view_dir) 0]
  rw [hfun]

/-- The renderer's nearest-hit query reads only the scene's object list. -/
theorem find_closest_intersection_objects_congr (r : Ray) (S T : Scene)
    (h : S.objects = T.objects) :
    Renderer.find_closest_intersection r S = Renderer.find_closest_intersection r T := by
  simp only [Renderer.find_closest_intersection, Scene.find_closest_intersection, h]

/-- The shadow test reads only the scene's object list. -/
theorem is_in_shadow_objects_congr (S T : Scene) (h : S.objects = T.objects)
    (hit_point normal : Vec3) (light : Light) :
    Renderer.is_in_shadow S hit_point normal light =
      Renderer.is_in_shadow T hit_point normal light := by
  simp only [Renderer.is_in_shadow]
  rw [find_closest_intersection_objects_congr _ _ _ h]

/-- The per-light contribution reads the scene only through the shadow
test. -/
theorem light_contribution_objects_congr (S T : Scene) (h : S.objects = T.objects)
    (hit_point normal : Vec3) (material : Material) (view_dir : Vec3) (light : Light) :
    Renderer.light_contribution hit_point normal material S view_dir light =
      Renderer.light_contribution hit_point normal material T view_dir light := by
  simp only [Renderer.light_contribution]
  rw [is_in_shadow_objects_congr _ _ h]

/-- C6: a light whose shadow ray finds a scene intersection strictly closer
than the light contributes zero diffuse and zero specular: erasing it from
the light list leaves shade unchanged, so the ambient term and every other
light are unaffected. -/
theorem shade_skips_shadowed_light (hit_point normal : Vec3) (material : Material)
    (view_dir : Vec3) (objects : List Object) (L1 L2 : List Light) (light : Light)
    (camera : Camera) (background_color : Vec3) (textures : List Unit)
    (h : Renderer.is_in_shadow
        ⟨objects, L1 ++ light :: L2, camera, background_color, textures⟩
        hit_point normal light = true) :
    Renderer.shade hit_point normal material
        ⟨objects, L1 ++ light :: L2, camera, background_color, textures⟩ view_dir =
      Renderer.shade hit_point normal material
        ⟨objects, L1 ++ L2, camera, background_color, textures⟩ view_dir := by
  rw [shade_eq_ambient_add_sum, shade_eq_ambient_add_sum]
  have hobj : (⟨objects, L1 ++ light :: L2, camera, background_color, textures⟩ : Scene).objects =
      (⟨objects, L1 ++ L2, camera, background_color, textures⟩ : Scene).objects := rfl
  have hlc : Renderer.light_contribution hit_point normal material
        ⟨objects, L1 ++ light :: L2, camera, background_color, textures⟩ view_dir =
      Renderer.light_contribution hit_point normal material
        ⟨objects, L1 ++ L2, camera, background_color, textures⟩ view_dir :=
    funext (fun l => light_contribution_objects_congr _ _ hobj hit_point normal material view_dir l)
  have hz : Renderer.light_contribution hit_point normal material
      ⟨objects, L1 ++ light :: L2, camera, background_color, textures⟩ view_dir light =
      Vec3.zero := by
    simp only [Renderer.light_contribution, h, if_true]
  have hz' : Renderer.light_contribution hit_point normal material
      ⟨objects, L1 ++ L2, camera, background_color, textures⟩ view_dir light =
      Vec3.zero := (congrFun hlc light).symm.trans hz
  simp only [List.map_append, List.map_cons, vecSum_append, vecSum, hlc]
  rw [hz', v3zero_add]

/-- Witness for C6: a single light straight above the shaded point with an
occluding plane halfway between them; the shadow test fires and the shaded
colour equals the one computed without that light. -/
theorem shade_skips_shadowed_light_witness :
    Renderer.is_in_shadow
        ⟨[Object.plane ⟨⟨0, 1 / 2, 0⟩, ⟨0, 1, 0⟩, ⟨⟨1, 1, 1⟩, 8 / 10, 0, 1, 0, false, none⟩⟩],
          [⟨⟨0, 1, 0⟩, ⟨1, 1, 1⟩, 1⟩], ⟨⟨0, 0, 0⟩⟩, ⟨0, 0, 0⟩, []⟩
        ⟨0, 0, 0⟩ ⟨0, 1, 0⟩ ⟨⟨0, 1, 0⟩, ⟨1, 1, 1⟩, 1⟩ = true ∧
    Renderer.shade ⟨0, 0, 0⟩ ⟨0, 1, 0⟩ ⟨⟨1, 0, 0⟩, 8 / 10, 2 / 10, 32, 0, false, none⟩
        ⟨[Object.plane ⟨⟨0, 1 / 2, 0⟩, ⟨0, 1, 0⟩, ⟨⟨1, 1, 1⟩, 8 / 10, 0, 1, 0, false, none⟩⟩],
          [⟨⟨0, 1, 0⟩, ⟨1, 1, 1⟩, 1⟩], ⟨⟨0, 0, 0⟩⟩, ⟨0, 0, 0⟩, []⟩ ⟨0, 0, 1⟩ =
      Renderer.shade ⟨0, 0, 0⟩ ⟨0, 1, 0⟩ ⟨⟨1, 0, 0⟩, 8 / 10, 2 / 10, 32, 0, false, none⟩
        ⟨[Object.plane ⟨⟨0, 1 / 2, 0⟩, ⟨0, 1, 0⟩, ⟨⟨1, 1, 1⟩, 8 / 10, 0, 1, 0, false, none⟩⟩],
          [], ⟨⟨0, 0, 0⟩⟩, ⟨0, 0, 0⟩, []⟩ ⟨0, 0, 1⟩ := by
  have hsh : Renderer.is_in_shadow
      ⟨[Object.plane ⟨⟨0, 1 / 2, 0⟩, ⟨0, 1, 0⟩, ⟨⟨1, 1, 1⟩, 8 / 10, 0, 1, 0, false, none⟩⟩],
        [⟨⟨0, 1, 0⟩, ⟨1, 1, 1⟩, 1⟩], ⟨⟨0, 0, 0⟩⟩, ⟨0, 0, 0⟩, []⟩
      ⟨0, 0, 0⟩ ⟨0, 1, 0⟩ ⟨⟨0, 1, 0⟩, ⟨1, 1, 1⟩, 1⟩ = true := by
    norm_num [Renderer.is_in_shadow, Renderer.find_closest_intersection,
      Scene.find_closest_intersection, findClosestAux, Object.intersect, Plane.intersect,
      Renderer.EPSILON, Vec3.normalize, Vec3.length, Vec3.dot, vsub_def, vadd_def,
      vmul_def, vdiv_def, Real.sqrt_one, EReal.coe_lt_top]
    rw [show (1 : EReal) = ((1 : ℝ) : EReal) from rfl]
    exact EReal.coe_lt_coe_iff.mpr (by norm_num)
  exact ⟨hsh, shade_skips_shadowed_light ⟨0, 0, 0⟩ ⟨0, 1, 0⟩
    ⟨⟨1, 0, 0⟩, 8 / 10, 2 / 10, 32, 0, false, none⟩ ⟨0, 0, 1⟩
    [Object.plane ⟨⟨0, 1 / 2, 0⟩, ⟨0, 1, 0⟩, ⟨⟨1, 1, 1⟩, 8 / 10, 0, 1, 0, false, none⟩⟩]
    [] [] ⟨⟨0, 1, 0⟩, ⟨1, 1, 1⟩, 1⟩ ⟨⟨0, 0, 0⟩⟩ ⟨0, 0, 0⟩ [] hsh⟩

/-- C1 (code bug witness): shade ignores textures entirely.  At a hit whose
material references texture id 0 — valid for the scene's one-entry texture
table — shade still returns the colour derived from the flat base colour
(red), while the spec's resolution rule applied to a green 1x1 texture
sampled at (1/2, 1/2) would give a different colour. -/
theorem shade_ignores_texture_at_failing_input :
    (⟨⟨1, 0, 0⟩, 8 / 10, 2 / 10, 32, 0, true, some 0⟩ : Material).has_texture = true ∧
    (⟨⟨1, 0, 0⟩, 8 / 10, 2 / 10, 32, 0, true, some 0⟩ : Material).texture_id = some 0 ∧
    (⟨[], [], ⟨⟨0, 0, 0⟩⟩, ⟨0, 0, 0⟩, [()]⟩ : Scene).textures.length = 1 ∧
    Renderer.shade ⟨0, 0, 0⟩ ⟨0, 1, 0⟩ ⟨⟨1, 0, 0⟩, 8 / 10, 2 / 10, 32, 0, true, some 0⟩
        ⟨[], [], ⟨⟨0, 0, 0⟩⟩, ⟨0, 0, 0⟩, [()]⟩ ⟨0, 0, 1⟩ = ⟨1 / 5, 0, 0⟩ ∧
    Vec3.clamp (Texture.sample ⟨1, 1, [[⟨0, 1, 0⟩]]⟩ (1 / 2) (1 / 2) *
        Renderer.AMBIENT_STRENGTH) = ⟨0, 1 / 5, 0⟩ ∧
    (⟨1 / 5, 0, 0⟩ : Vec3) ≠ ⟨0, 1 / 5, 0⟩ := by
  refine ⟨rfl, rfl, rfl, ?_, ?_, ?_⟩
  · norm_num [Renderer.shade, Renderer.AMBIENT_STRENGTH, vmul_def, Vec3.clamp,
      f32clamp, Vec3.mk.injEq]
  · have hfloor : ⌊(1 : ℝ) / 2 * (1 : ℕ)⌋ = 0 := by
      rw [Int.floor_eq_iff]
      norm_num
    norm_num [Texture.sample, f32clamp, hfloor, Renderer.AMBIENT_STRENGTH, vmul_def,
      Vec3.clamp, Vec3.mk.injEq]
  · simp only [ne_eq, Vec3.mk.injEq, not_and]
    intro h
    norm_num at h

/-- Characterisation of the minimum-scan loop of
Scene::find_closest_intersection: either no candidate ever beat the incoming
accumulator (which is returned unchanged, every candidate being at least the
incoming threshold), or the returned object is the first candidate attaining
the final minimum — every earlier candidate strictly larger, every later one
no smaller. -/
theorem findClosestAux_characterization (ray : Ray) (objs : List Object) :
    ∀ (ct : EReal) (co : Option Object),
      ((findClosestAux ray objs ct co).2 = none →
        co = none ∧ ∀ o ∈ objs, ∀ t, Object.intersect o ray = some t → ¬ t < ct) ∧
      (∀ o', (findClosestAux ray objs ct co).2 = some o' →
        (co = some o' ∧ (findClosestAux ray objs ct co).1 = ct ∧
          ∀ o ∈ objs, ∀ t, Object.intersect o ray = some t → ¬ t < ct) ∨
        (∃ pre o post, objs = pre ++ o :: post ∧ o' = o ∧
          Object.intersect o ray = some (findClosestAux ray objs ct co).1 ∧
          (findClosestAux ray objs ct co).1 < ct ∧
          (∀ p ∈ pre, ∀ t', Object.intersect p ray = some t' →
            (findClosestAux ray objs ct co).1 < t') ∧
          (∀ q ∈ post, ∀ t', Object.intersect q ray = some t' →
            (findClosestAux ray objs ct co).1 ≤ t'))) := by
  induction objs with
  | nil =>
    intro ct co
    constructor
    · intro h
      exact ⟨h, fun o ho => absurd ho (List.not_mem_nil o)⟩
    · intro o' h
      exact Or.inl ⟨h, rfl, fun o ho => absurd ho (List.not_mem_nil o)⟩
  | cons obj rest ih =>
    intro ct co
    cases hint : Object.intersect obj ray with
    | none =>
      have heq : findClosestAux ray (obj :: rest) ct co = findClosestAux ray rest ct co := by
        simp only [findClosestAux, hint]
      rw [heq]
      obtain ⟨ih1, ih2⟩ := ih ct co
      constructor
      · intro h
        obtain ⟨hco, hall⟩ := ih1 h
        refine ⟨hco, ?_⟩
        intro o ho t0 hto
        rcases List.mem_cons.mp ho with rfl | ho'
        · rw [hint] at hto; exact Option.noConfusion hto
        · exact hall o ho' t0 hto
      · intro o' h
        rcases ih2 o' h with ⟨hco, hfst, hall⟩ | ⟨pre, o, post, hsplit, rfl, hoi, hlt2, hpre, hpost⟩
        · refine Or.inl ⟨hco, hfst, ?_⟩
          intro o ho t0 hto
          rcases List.mem_cons.mp ho with rfl | ho'
          · rw [hint] at hto; exact Option.noConfusion hto
          · exact hall o ho' t0 hto
        · refine Or.inr ⟨obj :: pre, o', post, by rw [hsplit]; rfl, rfl, hoi, hlt2, ?_, hpost⟩
          intro p hp t' hpt
          rcases List.mem_cons.mp hp with rfl | hp'
          · rw [hint] at hpt; exact Option.noConfusion hpt
          · exact hpre p hp' t' hpt
    | some t =>
      by_cases hlt : t < ct
      · have heq : findClosestAux ray (obj :: rest) ct co =
            findClosestAux ray rest t (some obj) := by
          simp only [findClosestAux, hint, if_pos hlt]
        rw [heq]
        obtain ⟨ih1, ih2⟩ := ih t (some obj)
        constructor
        · intro h
          obtain ⟨hco, _⟩ := ih1 h
          exact Option.noConfusion hco
        · intro o' h
          rcases ih2 o' h with ⟨hco, hfst, hall⟩ | ⟨pre, o, post, hsplit, rfl, hoi, hlt2, hpre, hpost⟩
          · obtain rfl := Option.some.inj hco
            refine Or.inr ⟨[], obj, rest, rfl, rfl, ?_, ?_, ?_, ?_⟩
            · rw [hfst]; exact hint
            · rw [hfst]; exact hlt
            · intro p hp; exact absurd hp (List.not_mem_nil p)
            · intro q hq t' hqt
              rw [hfst]
              exact not_lt.mp (hall q hq t' hqt)
          · refine Or.inr ⟨obj :: pre, o', post, by rw [hsplit]; rfl, rfl, hoi,
              lt_trans hlt2 hlt, ?_, hpost⟩
            intro p hp t' hpt
            rcases List.mem_cons.mp hp with rfl | hp'
            · rw [hint] at hpt
              obtain rfl := Option.some.inj hpt
              exact hlt2
            · exact hpre p hp' t' hpt
      · have heq : findClosestAux ray (obj :: rest) ct co = findClosestAux ray rest ct co := by
          simp only [findClosestAux, hint, if_neg hlt]
        rw [heq]
        obtain ⟨ih1, ih2⟩ := ih ct co
        constructor
        · intro h
          obtain ⟨hco, hall⟩ := ih1 h
          refine ⟨hco, ?_⟩
          intro o ho t0 hto
          rcases List.mem_cons.mp ho with rfl | ho'
          · rw [hint] at hto
            obtain rfl := Option.some.inj hto
            exact hlt
          · exact hall o ho' t0 hto
        · intro o' h
          rcases ih2 o' h with ⟨hco, hfst, hall⟩ | ⟨pre, o, post, hsplit, rfl, hoi, hlt2, hpre, hpost⟩
          · refine Or.inl ⟨hco, hfst, ?_⟩
            intro o ho t0 hto
            rcases List.mem_cons.mp ho with rfl | ho'
            · rw [hint] at hto
              obtain rfl := Option.some.inj hto
              exact hlt
            · exact hall o ho' t0 hto
          · refine Or.inr ⟨obj :: pre, o', post, by rw [hsplit]; rfl, rfl, hoi, hlt2, ?_, hpost⟩
            intro p hp t' hpt
            rcases List.mem_cons.mp hp with rfl | hp'
            · rw [hint] at hpt
              obtain rfl := Option.some.inj hpt
              exact lt_of_lt_of_le hlt2 (not_lt.mp hlt)
            · exact hpre p hp' t' hpt

/-- C3 counterexample: for the zero-direction ray starting inside the box,
Cube::intersect returns Some(f32::INFINITY) (all three slab tests fall into
the parallel-inside branch), yet the scene query returns none, because the
scan's strict comparison t < closest_t never fires at t = INFINITY. -/
theorem find_closest_ignores_infinite_hit :
    Object.intersect
        (Object.cube ⟨⟨0, 0, 0⟩, ⟨1, 1, 1⟩, ⟨⟨1, 1, 1⟩, 8 / 10, 2 / 10, 32, 0, false, none⟩⟩)
        ⟨⟨1 / 2, 1 / 2, 1 / 2⟩, ⟨0, 0, 0⟩⟩ = some ⊤ ∧
    Object.intersect
        (Object.cube ⟨⟨0, 0, 0⟩, ⟨1, 1, 1⟩, ⟨⟨1, 1, 1⟩, 8 / 10, 2 / 10, 32, 0, false, none⟩⟩)
        ⟨⟨1 / 2, 1 / 2, 1 / 2⟩, ⟨0, 0, 0⟩⟩ ≠ none ∧
    Scene.find_closest_intersection
        ⟨[Object.cube ⟨⟨0, 0, 0⟩, ⟨1, 1, 1⟩, ⟨⟨1, 1, 1⟩, 8 / 10, 2 / 10, 32, 0, false, none⟩⟩],
          [], ⟨⟨0, 0, 0⟩⟩, ⟨0, 0, 0⟩, []⟩ ⟨⟨1 / 2, 1 / 2, 1 / 2⟩, ⟨0, 0, 0⟩⟩ = none := by
  have hint : Object.intersect
      (Object.cube ⟨⟨0, 0, 0⟩, ⟨1, 1, 1⟩, ⟨⟨1, 1, 1⟩, 8 / 10, 2 / 10, 32, 0, false, none⟩⟩)
      ⟨⟨1 / 2, 1 / 2, 1 / 2⟩, ⟨0, 0, 0⟩⟩ = some ⊤ := by
    norm_num [Object.intersect, Cube.intersect, slabStep, EReal.coe_lt_top, not_lt_bot]
  refine ⟨hint, by rw [hint]; exact Option.some_ne_none _, ?_⟩
  simp only [Scene.find_closest_intersection, findClosestAux, hint, lt_self_iff_false,
    if_false, Option.map_none']

/-- C3 (amended): the nearest-intersection query returns none exactly when no
primitive reports a finite distance (a Some(+INFINITY) report, possible only
for the degenerate box case, is never selected); otherwise it returns the
minimum reported distance — finite — together with the first primitive in
iteration (insertion) order attaining it: every earlier primitive's distance
is strictly larger and every later one's is no smaller, so exact ties go to
the earlier primitive. -/
theorem find_closest_intersection_characterization (s : Scene) (ray : Ray) :
    (Scene.find_closest_intersection s ray = none ↔
      ∀ o ∈ s.objects, ∀ t, Object.intersect o ray = some t → t = ⊤) ∧
    (∀ tr o', Scene.find_closest_intersection s ray = some (tr, o') →
      tr ≠ ⊤ ∧
      (∀ o ∈ s.objects, ∀ t, Object.intersect o ray = some t → tr ≤ t) ∧
      (∃ pre post, s.objects = pre ++ o' :: post ∧
        Object.intersect o' ray = some tr ∧
        (∀ p ∈ pre, ∀ t, Object.intersect p ray = some t → tr < t) ∧
        (∀ q ∈ post, ∀ t, Object.intersect q ray = some t → tr ≤ t))) := by
  have hchar := findClosestAux_characterization ray s.objects ⊤ none
  rcases haux : findClosestAux ray s.objects ⊤ none with ⟨ct, co⟩
  rw [haux] at hchar
  have hfind : Scene.find_closest_intersection s ray = co.map (fun o => (ct, o)) := by
    simp only [Scene.find_closest_intersection, haux]
  constructor
  · constructor
    · intro hnone
      rw [hfind] at hnone
      have hco : co = none := by
        cases co with
        | none => rfl
        | some o => simp at hnone
      obtain ⟨_, hall⟩ := hchar.1 hco
      intro o ho t hto
      by_contra hne
      exact hall o ho t hto (lt_top_iff_ne_top.mpr hne)
    · intro hall
      rw [hfind]
      cases hco : co with
      | none => rfl
      | some o1 =>
        exfalso
        rcases hchar.2 o1 hco with ⟨hcon, _, _⟩ | ⟨pre, o, post, hsplit, rfl, hoi, hlt, _, _⟩
        · exact Option.noConfusion hcon
        · have hmem : o1 ∈ s.objects := by
            rw [hsplit]
            exact List.mem_append_right pre (List.mem_cons_self o1 post)
          have ht := hall o1 hmem _ hoi
          rw [ht] at hlt
          exact lt_irrefl _ hlt
  · intro tr o' hf
    rw [hfind] at hf
    cases hco : co with
    | none =>
      rw [hco] at hf
      exact Option.noConfusion hf
    | some o1 =>
      rw [hco] at hf
      simp only [Option.map_some'] at hf
      have h12 := Option.some.inj hf
      have h1 : ct = tr := congrArg Prod.fst h12
      have h2 : o1 = o' := congrArg Prod.snd h12
      rw [← h1, ← h2]
      rcases hchar.2 o1 hco with ⟨hcon, _, _⟩ | ⟨pre, o, post, hsplit, hoo, hoi, hlt, hpre, hpost⟩
      · exact Option.noConfusion hcon
      · cases hoo
        have hmin : ∀ o ∈ s.objects, ∀ t, Object.intersect o ray = some t → ct ≤ t := by
          intro o ho t hto
          rw [hsplit] at ho
          rcases List.mem_append.mp ho with hp | hrest
          · exact le_of_lt (hpre o hp t hto)
          · rcases List.mem_cons.mp hrest with rfl | hq
            · rw [hoi] at hto
              obtain rfl := Option.some.inj hto
              exact le_refl _
            · exact hpost o hq t hto
        exact ⟨LT.lt.ne hlt, hmin, pre, post, hsplit, hoi, hpre, hpost⟩

/-- Witness for C3: two planes with identical geometry but different
materials both report distance 1; the query returns the first of them. -/
theorem find_closest_characterization_witness :
    Scene.find_closest_intersection
        ⟨[Object.plane ⟨⟨0, 0, 0⟩, ⟨0, 1, 0⟩, ⟨⟨1, 0, 0⟩, 8 / 10, 2 / 10, 32, 0, false, none⟩⟩,
          Object.plane ⟨⟨0, 0, 0⟩, ⟨0, 1, 0⟩, ⟨⟨0, 1, 0⟩, 8 / 10, 2 / 10, 32, 0, false, none⟩⟩],
          [], ⟨⟨0, 0, 0⟩⟩, ⟨0, 0, 0⟩, []⟩ ⟨⟨0, 1, 0⟩, ⟨0, -1, 0⟩⟩ =
      some (((1 : ℝ) : EReal),
        Object.plane ⟨⟨0, 0, 0⟩, ⟨0, 1, 0⟩, ⟨⟨1, 0, 0⟩, 8 / 10, 2 / 10, 32, 0, false, none⟩⟩) ∧
    ((1 : ℝ) : EReal) ≠ ⊤ := by
  have hia : Object.intersect
      (Object.plane ⟨⟨0, 0, 0⟩, ⟨0, 1, 0⟩, ⟨⟨1, 0, 0⟩, 8 / 10, 2 / 10, 32, 0, false, none⟩⟩)
      ⟨⟨0, 1, 0⟩, ⟨0, -1, 0⟩⟩ = some ((1 : ℝ) : EReal) := by
    simp only [Object.intersect, Plane.intersect, Vec3.dot, vsub_def]
    norm_num
  have hib : Object.intersect
      (Object.plane ⟨⟨0, 0, 0⟩, ⟨0, 1, 0⟩, ⟨⟨0, 1, 0⟩, 8 / 10, 2 / 10, 32, 0, false, none⟩⟩)
      ⟨⟨0, 1, 0⟩, ⟨0, -1, 0⟩⟩ = some ((1 : ℝ) : EReal) := by
    simp only [Object.intersect, Plane.intersect, Vec3.dot, vsub_def]
    norm_num
  have hfind : Scene.find_closest_intersection
      ⟨[Object.plane ⟨⟨0, 0, 0⟩, ⟨0, 1, 0⟩, ⟨⟨1, 0, 0⟩, 8 / 10, 2 / 10, 32, 0, false, none⟩⟩,
        Object.plane ⟨⟨0, 0, 0⟩, ⟨0, 1, 0⟩, ⟨⟨0, 1, 0⟩, 8 / 10, 2 / 10, 32, 0, false, none⟩⟩],
        [], ⟨⟨0, 0, 0⟩⟩, ⟨0, 0, 0⟩, []⟩ ⟨⟨0, 1, 0⟩, ⟨0, -1, 0⟩⟩ =
      some (((1 : ℝ) : EReal),
        Object.plane ⟨⟨0, 0, 0⟩, ⟨0, 1, 0⟩, ⟨⟨1, 0, 0⟩, 8 / 10, 2 / 10, 32, 0, false, none⟩⟩) := by
    simp only [Scene.find_closest_intersection, findClosestAux, hia, hib,
      EReal.coe_lt_top, if_true, lt_self_iff_false, if_false, Option.map_some']
  have h := (find_closest_intersection_characterization
      ⟨[Object.plane ⟨⟨0, 0, 0⟩, ⟨0, 1, 0⟩, ⟨⟨1, 0, 0⟩, 8 / 10, 2 / 10, 32, 0, false, none⟩⟩,
        Object.plane ⟨⟨0, 0, 0⟩, ⟨0, 1, 0⟩, ⟨⟨0, 1, 0⟩, 8 / 10, 2 / 10, 32, 0, false, none⟩⟩],
        [], ⟨⟨0, 0, 0⟩⟩, ⟨0, 0, 0⟩, []⟩ ⟨⟨0, 1, 0⟩, ⟨0, -1, 0⟩⟩).2
      ((1 : ℝ) : EReal)
      (Object.plane ⟨⟨0, 0, 0⟩, ⟨0, 1, 0⟩, ⟨⟨1, 0, 0⟩, 8 / 10, 2 / 10, 32, 0, false, none⟩⟩)
      hfind
  exact ⟨hfind, h.1⟩

/-- The scalar clamp lands in [0, 1]. -/
theorem f32clamp_unit (x : ℝ) : 0 ≤ f32clamp x 0 1 ∧ f32clamp x 0 1 ≤ 1 := by
  rw [f32clamp]
  split_ifs with h1 h2 <;> constructor <;> linarith

/-- Every component of a clamped colour lies in [0, 1]. -/
theorem clamp_mem_unit (v : Vec3) : inUnit (Vec3.clamp v) :=
  ⟨(f32clamp_unit v.x).1, (f32clamp_unit v.x).2, (f32clamp_unit v.y).1,
   (f32clamp_unit v.y).2, (f32clamp_unit v.z).1, (f32clamp_unit v.z).2⟩

/-- A convex blend of two colours in the unit cube stays in the unit cube. -/
theorem blend_mem_unit (a b : Vec3) (r : ℝ) (ha : inUnit a) (hb : inUnit b)
    (h0 : 0 ≤ r) (h1 : r ≤ 1) : inUnit (a * (1 - r) + b * r) := by
  obtain ⟨hax0, hax1, hay0, hay1, haz0, haz1⟩ := ha
  obtain ⟨hbx0, hbx1, hby0, hby1, hbz0, hbz1⟩ := hb
  refine ⟨?_, ?_, ?_, ?_, ?_, ?_⟩ <;>
    simp only [vadd_def, vmul_def] <;> nlinarith

/-- The scan returns either the incoming accumulator object or a member of
the list. -/
theorem findClosestAux_mem (ray : Ray) :
    ∀ (objs : List Object) (ct : EReal) (co : Option Object) (o : Object),
      (findClosestAux ray objs ct co).2 = some o → co = some o ∨ o ∈ objs := by
  intro objs
  induction objs with
  | nil => intro ct co o h; exact Or.inl h
  | cons obj rest ih =>
    intro ct co o h
    cases hint : Object.intersect obj ray with
    | none =>
      rw [show findClosestAux ray (obj :: rest) ct co = findClosestAux ray rest ct co by
        simp only [findClosestAux, hint]] at h
      rcases ih ct co o h with hco | hmem
      · exact Or.inl hco
      · exact Or.inr (List.mem_cons_of_mem obj hmem)
    | some t =>
      by_cases hlt : t < ct
      · rw [show findClosestAux ray (obj :: rest) ct co = findClosestAux ray rest t (some obj) by
          simp only [findClosestAux, hint, if_pos hlt]] at h
        rcases ih t (some obj) o h with hco | hmem
        · obtain rfl := Option.some.inj hco
          exact Or.inr (List.mem_cons_self _ _)
        · exact Or.inr (List.mem_cons_of_mem obj hmem)
      · rw [show findClosestAux ray (obj :: rest) ct co = findClosestAux ray rest ct co by
          simp only [findClosestAux, hint, if_neg hlt]] at h
        rcases ih ct co o h with hco | hmem
        · exact Or.inl hco
        · exact Or.inr (List.mem_cons_of_mem obj hmem)

/-- A scene object returned by the nearest-hit query belongs to the scene. -/
theorem find_closest_intersection_mem (s : Scene) (ray : Ray) (t : EReal) (o : Object)
    (h : Scene.find_closest_intersection s ray = some (t, o)) : o ∈ s.objects := by
  rw [Scene.find_closest_intersection] at h
  rcases haux : (findClosestAux ray s.objects ⊤ none).2 with _ | o1
  · rw [haux] at h
    exact Option.noConfusion h
  · rw [haux] at h
    simp only [Option.map_some'] at h
    have h2 : o1 = o := congrArg Prod.snd (Option.some.inj h)
    rcases findClosestAux_mem ray s.objects ⊤ none o1 haux with hco | hmem
    · exact Option.noConfusion hco
    · rw [← h2]
      exact hmem

/-- C10: for a scene whose background colour has all channels in [0, 1] and
all of whose objects have reflectivity in [0, 1], trace_ray returns a colour
with every channel in [0, 1], for every ray and depth: shade clamps its
output, and the reflective blend of two unit-cube colours with a [0, 1]
weight stays in the unit cube. -/
theorem trace_ray_unit_interval (scene : Scene)
    (hbg : inUnit scene.background_color)
    (hrefl : ∀ o ∈ scene.objects,
      0 ≤ o.get_material.reflectivity ∧ o.get_material.reflectivity ≤ 1) :
    ∀ (ray : Ray) (depth : ℕ), inUnit (Renderer.trace_ray ray scene depth) := by
  intro ray depth
  induction depth generalizing ray with
  | zero => exact hbg
  | succ d ih =>
    cases hfc : Renderer.find_closest_intersection ray scene with
    | none =>
      simp only [Renderer.trace_ray, hfc]
      exact hbg
    | some q =>
      obtain ⟨t, hp, n, o⟩ := q
      have hmem : o ∈ scene.objects := by
        rw [Renderer.find_closest_intersection] at hfc
        rcases hs : Scene.find_closest_intersection scene ray with _ | ⟨t0, o0⟩
        · rw [hs] at hfc
          exact Option.noConfusion hfc
        · rw [hs] at hfc
          have ho : o0 = o :=
            congrArg (fun p => p.2.2.2) (Option.some.inj hfc)
          rw [← ho]
          exact find_closest_intersection_mem scene ray t0 o0 hs
      have hr := hrefl o hmem
      have hloc : inUnit (Renderer.shade hp n o.get_material scene
          ((scene.camera.position - hp).normalize)) := by
        simp only [Renderer.shade]
        exact clamp_mem_unit _
      simp only [Renderer.trace_ray, hfc]
      split_ifs with hcond
      · exact blend_mem_unit _ _ _ hloc (ih _) hr.1 hr.2
      · exact hloc

/-- Witness for C10: the empty scene with black background satisfies both
hypotheses and traces into the unit cube at depth 2. -/
theorem trace_ray_unit_interval_witness :
    inUnit ((⟨[], [], ⟨⟨0, 0, 0⟩⟩, ⟨0, 0, 0⟩, []⟩ : Scene).background_color) ∧
    (∀ o ∈ (⟨[], [], ⟨⟨0, 0, 0⟩⟩, ⟨0, 0, 0⟩, []⟩ : Scene).objects,
      0 ≤ o.get_material.reflectivity ∧ o.get_material.reflectivity ≤ 1) ∧
    inUnit (Renderer.trace_ray ⟨⟨0, 0, 0⟩, ⟨0, 0, 1⟩⟩
      ⟨[], [], ⟨⟨0, 0, 0⟩⟩, ⟨0, 0, 0⟩, []⟩ 2) := by
  have hbg : inUnit ((⟨[], [], ⟨⟨0, 0, 0⟩⟩, ⟨0, 0, 0⟩, []⟩ : Scene).background_color) := by
    norm_num [inUnit]
  have hrefl : ∀ o ∈ (⟨[], [], ⟨⟨0, 0, 0⟩⟩, ⟨0, 0, 0⟩, []⟩ : Scene).objects,
      0 ≤ o.get_material.reflectivity ∧ o.get_material.reflectivity ≤ 1 :=
    fun o ho => absurd ho (List.not_mem_nil o)
  exact ⟨hbg, hrefl,
    trace_ray_unit_interval ⟨[], [], ⟨⟨0, 0, 0⟩⟩, ⟨0, 0, 0⟩, []⟩ hbg hrefl
      ⟨⟨0, 0, 0⟩, ⟨0, 0, 1⟩⟩ 2⟩
